import Mathlib

/-!
Verification development for the SolarRoots directory vision-alignment engine
(`src/config/vision.ts`).  The engine is a pure function from a list of site
records and the vision configuration to an assessment record; JavaScript
numbers are embedded as rationals, the `Map<string, number>` tag-occurrence
accumulator as an association list with JS `Map` set/get/has semantics, and
the `Set<string>` opportunity accumulator as an insertion-ordered list with
membership-checked insertion.
-/

/-- Embedding of `SiteRecord` (`src/types/directory`): one directory entry with
a tag list.  Only `tags` feeds the assessment engine; the other fields ride
along for fidelity. -/
structure SiteRecord where
  id : Int
  name : String
  description : Option String
  website : Option String
  tags : List String
deriving Repr, DecidableEq

/-- Embedding of `VisionConfig.directory_targets` (`vision.ts` lines 14-19):
`minimum_sites` is an integer count, `minimum_tag_density` a number (rational),
plus the recommended-tag and storytelling-focus lists. -/
structure DirectoryTargets where
  minimum_sites : Int
  minimum_tag_density : ℚ
  recommended_tags : List String
  storytelling_focus : List String
deriving Repr, DecidableEq

/-- Embedding of `VisionAssessmentMetrics` (`vision.ts` lines 22-34). -/
structure VisionAssessmentMetrics where
  siteCount : Nat
  minimumSites : Int
  meetsMinimumSites : Bool
  totalTags : Nat
  averageTagsPerSite : ℚ
  minimumTagDensity : ℚ
  meetsMinimumTagDensity : Bool
  recommendedTags : List String
  presentRecommendedTags : List String
  missingRecommendedTags : List String
  coverageRatio : ℚ
deriving Repr, DecidableEq

/-- Embedding of `VisionAssessment` (`vision.ts` lines 36-41). -/
structure VisionAssessment where
  metrics : VisionAssessmentMetrics
  storytellingFocus : List String
  opportunities : List String
  progressScore : ℚ
deriving Repr, DecidableEq

/-- JS `Map.get(k) ?? d`: first entry with key `k`, or the default. -/
def mapGetD (m : List (String × Nat)) (k : String) (d : Nat) : Nat :=
  match m with
  | [] => d
  | (k₂, v) :: rest => if k₂ = k then v else mapGetD rest k d

/-- JS `Map.set(k, v)`: replace the value at an existing key in place,
otherwise append the new entry (insertion order preserved). -/
def mapSet (m : List (String × Nat)) (k : String) (v : Nat) : List (String × Nat) :=
  match m with
  | [] => [(k, v)]
  | (k₂, v₂) :: rest => if k₂ = k then (k₂, v) :: rest else (k₂, v₂) :: mapSet rest k v

/-- JS `Map.has(k)`. -/
def mapHas (m : List (String × Nat)) (k : String) : Bool :=
  match m with
  | [] => false
  | (k₂, _) :: rest => k₂ = k || mapHas rest k

/-- One step of the tag loop body (`vision.ts` lines 56-59): bump `totalTags`
and the per-tag occurrence count. -/
def tallyStep (acc : Nat × List (String × Nat)) (tag : String) : Nat × List (String × Nat) :=
  (acc.1 + 1, mapSet acc.2 tag (mapGetD acc.2 tag 0 + 1))

/-- The inner `for (const tag of site.tags)` loop (`vision.ts` lines 56-60). -/
def tallyTags (acc : Nat × List (String × Nat)) (tags : List String) : Nat × List (String × Nat) :=
  tags.foldl tallyStep acc

/-- The full accumulation loop over sites (`vision.ts` lines 52-60), starting
from `totalTags = 0` and an empty `Map`. -/
def tagTally (sites : List SiteRecord) : Nat × List (String × Nat) :=
  sites.foldl (fun acc site => tallyTags acc site.tags) (0, [])

/-- `totalTags` after the loop (`vision.ts` line 52, 57). -/
def totalTags (sites : List SiteRecord) : Nat :=
  (tagTally sites).1

/-- Embedding of `vision.ts` line 62:
`averageTagsPerSite = siteCount === 0 ? 0 : totalTags / siteCount`. -/
def averageTagsPerSite (sites : List SiteRecord) : ℚ :=
  if sites.length = 0 then 0 else (totalTags sites : ℚ) / (sites.length : ℚ)

/-- Embedding of the partition loop (`vision.ts` lines 64-73), present side:
the recommended tags whose key is in the occurrence map, in configuration
order. -/
def presentRecommendedTags (targets : DirectoryTargets) (sites : List SiteRecord) : List String :=
  targets.recommended_tags.filter (fun tag => mapHas (tagTally sites).2 tag)

/-- Embedding of the partition loop (`vision.ts` lines 64-73), missing side. -/
def missingRecommendedTags (targets : DirectoryTargets) (sites : List SiteRecord) : List String :=
  targets.recommended_tags.filter (fun tag => !mapHas (tagTally sites).2 tag)

/-- Embedding of `vision.ts` lines 75-77: `recommended_tags.length` is truthy
iff nonzero, so a zero length yields `1`. -/
def coverageRatio (targets : DirectoryTargets) (sites : List SiteRecord) : ℚ :=
  if targets.recommended_tags.length = 0 then 1
  else ((presentRecommendedTags targets sites).length : ℚ) / (targets.recommended_tags.length : ℚ)

/-- Embedding of `vision.ts` line 79: `siteCount >= minimum_sites`. -/
def meetsMinimumSites (targets : DirectoryTargets) (sites : List SiteRecord) : Bool :=
  decide ((sites.length : Int) ≥ targets.minimum_sites)

/-- Embedding of `vision.ts` lines 80-81:
`minimum_tag_density <= 0 ? true : averageTagsPerSite >= minimum_tag_density`. -/
def meetsMinimumTagDensity (targets : DirectoryTargets) (sites : List SiteRecord) : Bool :=
  if targets.minimum_tag_density ≤ 0 then true
  else decide (averageTagsPerSite sites ≥ targets.minimum_tag_density)

/-- Embedding of `formatList` (`vision.ts` lines 150-166): the length checks
0 / 1 / 2 and the general branch
`items.slice(0, -1).join(", ") + ", and " + last`. -/
def formatList (items : List String) : String :=
  match items with
  | [] => ""
  | [a] => a
  | [a, b] => a ++ " and " ++ b
  | items => String.intercalate ", " items.dropLast ++ ", and " ++ items.getLast!

/-- JS `Number.prototype.toFixed(1)` on a rational: round half toward
positive infinity at one decimal (ECMA picks the larger candidate on ties),
rendered with exactly one digit after the point. -/
def toFixed1 (q : ℚ) : String :=
  let n : Int := round (q * 10)
  (if n < 0 then "-" else "") ++ (n.natAbs / 10).repr ++ "." ++ (n.natAbs % 10).repr

/-- `Number(x.toFixed(1))` as a rational: the value rounded to one decimal. -/
def roundTo1 (q : ℚ) : ℚ :=
  ((round (q * 10) : Int) : ℚ) / 10

/-- The site-count gap message (`vision.ts` lines 99-105), with the
singular/plural noun agreement on `remaining`. -/
def siteGapMessage (minimumSites : Int) (siteCount : Nat) : String :=
  let remaining : Int := minimumSites - (siteCount : Int)
  let entryWord : String := if remaining = 1 then "entry" else "entries"
  "Publish " ++ remaining.repr ++ " more directory " ++ entryWord ++
    " to reach the SolarRoots minimum of " ++ minimumSites.repr ++ "."

/-- The tag-density gap message (`vision.ts` lines 107-113). -/
def densityMessage (minimumTagDensity avg : ℚ) : String :=
  "Increase the average tags per site to at least " ++ toFixed1 minimumTagDensity ++
    " (currently " ++ toFixed1 avg ++ ") by documenting more dimensions of each cooperative."

/-- The missing-recommended-tags message (`vision.ts` lines 115-119). -/
def missingTagsMessage (missing : List String) : String :=
  "Introduce tags for " ++ formatList missing ++ " so the directory reflects SolarRoots focus areas."

/-- The storytelling-focus message (`vision.ts` lines 121-127). -/
def storytellingMessage (focus : List String) : String :=
  "Collect narratives covering " ++ formatList focus ++
    " to stay aligned with the SolarRoots storytelling focus."

/-- The four conditional `opportunities.add` calls (`vision.ts` lines 97-127)
in source order, before deduplication. -/
def opportunityCandidates (targets : DirectoryTargets) (sites : List SiteRecord) : List String :=
  (if !meetsMinimumSites targets sites ∧ 0 < targets.minimum_sites then
    [siteGapMessage targets.minimum_sites sites.length] else []) ++
  (if !meetsMinimumTagDensity targets sites ∧ 0 < targets.minimum_tag_density then
    [densityMessage targets.minimum_tag_density (averageTagsPerSite sites)] else []) ++
  (if (missingRecommendedTags targets sites).length ≠ 0 then
    [missingTagsMessage (missingRecommendedTags targets sites)] else []) ++
  (if targets.storytelling_focus.length ≠ 0 then
    [storytellingMessage targets.storytelling_focus] else [])

/-- JS `Set.add` under insertion-order iteration: append unless already
present. -/
def setAdd (l : List String) (x : String) : List String :=
  if x ∈ l then l else l ++ [x]

/-- The normalized progress factors (`vision.ts` lines 129-133), each clamped
to at most 1 and defaulting to 1 when its target is not positive. -/
def normalizedProgressFactors (targets : DirectoryTargets) (sites : List SiteRecord) : List ℚ :=
  [if 0 < targets.minimum_sites then
      min ((sites.length : ℚ) / (targets.minimum_sites : ℚ)) 1 else 1,
   if 0 < targets.minimum_tag_density then
      min (averageTagsPerSite sites / targets.minimum_tag_density) 1 else 1,
   coverageRatio targets sites]

/-- Embedding of `vision.ts` lines 135-140:
`Number(((factors.reduce(sum) / factors.length) * 100).toFixed(1))`. -/
def progressScore (targets : DirectoryTargets) (sites : List SiteRecord) : ℚ :=
  roundTo1 ((normalizedProgressFactors targets sites).foldl (fun sum value => sum + value) 0 /
    ((normalizedProgressFactors targets sites).length : ℚ) * 100)

/-- Embedding of `assessDirectoryAgainstVision` (`vision.ts` lines 47-148),
with the process-wide `visionConfig.directory_targets` passed explicitly.
The source spreads `recommended_tags` and `storytelling_focus` into fresh
arrays; lists are immutable here, so the copies are the lists themselves. -/
def assessDirectoryAgainstVision (targets : DirectoryTargets) (sites : List SiteRecord) :
    VisionAssessment :=
  { metrics :=
      { siteCount := sites.length
        minimumSites := targets.minimum_sites
        meetsMinimumSites := meetsMinimumSites targets sites
        totalTags := totalTags sites
        averageTagsPerSite := averageTagsPerSite sites
        minimumTagDensity := targets.minimum_tag_density
        meetsMinimumTagDensity := meetsMinimumTagDensity targets sites
        recommendedTags := targets.recommended_tags
        presentRecommendedTags := presentRecommendedTags targets sites
        missingRecommendedTags := missingRecommendedTags targets sites
        coverageRatio := coverageRatio targets sites }
    storytellingFocus := targets.storytelling_focus
    opportunities := (opportunityCandidates targets sites).foldl setAdd []
    progressScore := progressScore targets sites }

/-- A structured document value, as produced by the `yaml` package parse. -/
inductive YamlValue where
  | nullV : YamlValue
  | boolV : Bool → YamlValue
  | numV : ℚ → YamlValue
  | strV : String → YamlValue
  | arrV : List YamlValue → YamlValue
  | objV : List (String × YamlValue) → YamlValue

/-- Whether a parsed document has a top-level mapping key. -/
def yamlObjHasKey : YamlValue → String → Bool
  | .objV entries, k => entries.any (fun e => e.1 = k)
  | _, _ => false

/-- Embedding of the configuration load (`vision.ts` lines 43-45):
`visionConfig = Object.freeze(parse(VISION_YAML) as VisionConfig)`.
The parse result of the external `yaml` library is the input (it throws only
on a malformed document, here an `Except.error`); the TypeScript
`as VisionConfig` cast performs no runtime check and `Object.freeze` does not
change the value, so the load passes the parse result through with no field
validation. -/
def loadVisionConfig (parsed : Except String YamlValue) : Except String YamlValue :=
  Except.map (fun v => v) parsed

/-- First-occurrence deduplication: keep the first occurrence of each
string, drop the later ones (JS Set insertion-order semantics). -/
def dedupKeepFirst : List String → List String
  | [] => []
  | x :: xs => x :: dedupKeepFirst (xs.filter (fun y => y ≠ x))
termination_by l => l.length
decreasing_by
  simp only [List.length_cons]
  exact Nat.lt_succ_of_le (List.length_filter_le _ _)

/-- The directory-target configuration of the spec test scenarios (spec
section 8): minimum 2 sites, density 1.5, two recommended tags, one
storytelling focus area. -/
def exampleTargets : DirectoryTargets :=
  { minimum_sites := 2, minimum_tag_density := 3 / 2,
    recommended_tags := ["solar", "cooperative"], storytelling_focus := ["community"] }

/-- A directory entry with the given id and tags. -/
def exampleSite (n : Int) (tags : List String) : SiteRecord :=
  { id := n, name := "Example Cooperative", description := none, website := none, tags := tags }

/-! ### Lemmas about the occurrence map and the accumulation loop -/

theorem mapHas_mapSet (m : List (String × Nat)) (k q : String) (v : Nat) :
    mapHas (mapSet m k v) q = (decide (k = q) || mapHas m q) := by
  induction m with
  | nil => simp [mapSet, mapHas]
  | cons e rest ih =>
    obtain ⟨k₂, v₂⟩ := e
    by_cases h : k₂ = k
    · subst h
      by_cases hq : k₂ = q <;> simp [mapSet, mapHas, hq]
    · by_cases hq : k₂ = q
      · subst hq
        simp [mapSet, mapHas, h, ih]
      · simp [mapSet, mapHas, h, hq, ih]

theorem tallyTags_fst (tags : List String) (acc : Nat × List (String × Nat)) :
    (tallyTags acc tags).1 = acc.1 + tags.length := by
  induction tags generalizing acc with
  | nil => simp [tallyTags]
  | cons t rest ih =>
    have : tallyTags acc (t :: rest) = tallyTags (tallyStep acc t) rest := rfl
    rw [this, ih]
    simp [tallyStep]
    omega

theorem tallyTags_has (tags : List String) (acc : Nat × List (String × Nat)) (q : String) :
    mapHas (tallyTags acc tags).2 q = (mapHas acc.2 q || decide (q ∈ tags)) := by
  induction tags generalizing acc with
  | nil => simp [tallyTags]
  | cons t rest ih =>
    have : tallyTags acc (t :: rest) = tallyTags (tallyStep acc t) rest := rfl
    rw [this, ih]
    by_cases hq : q = t <;>
      simp [tallyStep, mapHas_mapSet, hq, eq_comm, Bool.or_comm, Bool.or_assoc, Bool.or_left_comm]

theorem tagTally_fst (sites : List SiteRecord) :
    (tagTally sites).1 = (sites.map (fun s => s.tags.length)).sum := by
  suffices h : ∀ (acc : Nat × List (String × Nat)),
      (sites.foldl (fun a s => tallyTags a s.tags) acc).1 =
        acc.1 + (sites.map (fun s => s.tags.length)).sum by
    simpa [tagTally] using h (0, [])
  induction sites with
  | nil => simp
  | cons s rest ih =>
    intro acc
    simp only [List.foldl_cons, List.map_cons, List.sum_cons, ih, tallyTags_fst]
    omega

theorem tagTally_has (sites : List SiteRecord) (q : String) :
    mapHas (tagTally sites).2 q = decide (∃ s ∈ sites, q ∈ s.tags) := by
  suffices h : ∀ (acc : Nat × List (String × Nat)),
      mapHas ((sites.foldl (fun a s => tallyTags a s.tags) acc)).2 q =
        (mapHas acc.2 q || decide (∃ s ∈ sites, q ∈ s.tags)) by
    simpa [tagTally, mapHas] using h (0, [])
  induction sites with
  | nil => simp
  | cons s rest ih =>
    intro acc
    simp only [List.foldl_cons, ih, tallyTags_has]
    by_cases hs : q ∈ s.tags <;> simp [hs, Bool.or_comm, Bool.or_assoc, Bool.or_left_comm]

/-! ### Generic list lemmas used by the partition and dedup claims -/

theorem length_filter_add_length_filter_not {α : Type} (l : List α) (p : α → Bool) :
    (l.filter p).length + (l.filter (fun a => !p a)).length = l.length := by
  induction l with
  | nil => simp
  | cons a rest ih =>
    cases h : p a <;> simp [List.filter_cons, h, ← ih] <;> omega


theorem dedupKeepFirst_nil : dedupKeepFirst [] = [] := by
  simp [dedupKeepFirst]

theorem dedupKeepFirst_cons (x : String) (xs : List String) :
    dedupKeepFirst (x :: xs) = x :: dedupKeepFirst (xs.filter (fun y => y ≠ x)) := by
  simp [dedupKeepFirst]

theorem setAdd_foldl_eq_append_dedup (cands : List String) :
    ∀ acc : List String,
      cands.foldl setAdd acc = acc ++ dedupKeepFirst (cands.filter (fun y => y ∉ acc)) := by
  induction cands with
  | nil => intro acc; simp [dedupKeepFirst_nil]
  | cons c rest ih =>
    intro acc
    by_cases hc : c ∈ acc
    · rw [List.foldl_cons, show setAdd acc c = acc from by simp [setAdd, hc], ih acc]
      have h1 : (c :: rest).filter (fun y => decide (y ∉ acc)) =
          rest.filter (fun y => decide (y ∉ acc)) := by
        simp [List.filter_cons, hc]
      rw [h1]
    · rw [List.foldl_cons, show setAdd acc c = acc ++ [c] from by simp [setAdd, hc],
        ih (acc ++ [c])]
      have h1 : (c :: rest).filter (fun y => decide (y ∉ acc)) =
          c :: rest.filter (fun y => decide (y ∉ acc)) := by
        simp [List.filter_cons, hc]
      have h2 : rest.filter (fun y => decide (y ∉ acc ++ [c])) =
          (rest.filter (fun y => decide (y ∉ acc))).filter (fun y => decide (y ≠ c)) := by
        rw [List.filter_filter]
        apply List.filter_congr
        intro y _
        by_cases h₃ : y ∈ acc <;> by_cases h₄ : y = c <;> simp [h₃, h₄]
      rw [h1, dedupKeepFirst_cons, h2, List.append_assoc]
      rfl

theorem mem_dedupKeepFirst (x : String) : ∀ l : List String, x ∈ dedupKeepFirst l ↔ x ∈ l
  | [] => by simp [dedupKeepFirst_nil]
  | y :: ys => by
    rw [dedupKeepFirst_cons]
    by_cases hx : x = y
    · simp [hx]
    · have hrec := mem_dedupKeepFirst x (ys.filter (fun z => z ≠ y))
      simp only [List.mem_cons, hrec, List.mem_filter]
      simp [hx]
termination_by l => l.length
decreasing_by
  simp only [List.length_cons]
  exact Nat.lt_succ_of_le (List.length_filter_le _ _)

theorem nodup_dedupKeepFirst : ∀ l : List String, (dedupKeepFirst l).Nodup
  | [] => by simp [dedupKeepFirst_nil]
  | y :: ys => by
    rw [dedupKeepFirst_cons]
    have hrec := nodup_dedupKeepFirst (ys.filter (fun z => z ≠ y))
    have hy : y ∉ dedupKeepFirst (ys.filter (fun z => z ≠ y)) := by
      rw [mem_dedupKeepFirst]
      simp
    rw [List.nodup_cons]
    exact ⟨hy, hrec⟩
termination_by l => l.length
decreasing_by
  simp only [List.length_cons]
  exact Nat.lt_succ_of_le (List.length_filter_le _ _)

theorem sublist_dedupKeepFirst : ∀ l : List String, (dedupKeepFirst l).Sublist l
  | [] => by simp [dedupKeepFirst_nil]
  | y :: ys => by
    rw [dedupKeepFirst_cons]
    have hrec := sublist_dedupKeepFirst (ys.filter (fun z => z ≠ y))
    exact List.Sublist.cons₂ y (hrec.trans (List.filter_sublist ys))
termination_by l => l.length
decreasing_by
  simp only [List.length_cons]
  exact Nat.lt_succ_of_le (List.length_filter_le _ _)

theorem setAdd_foldl_eq_dedupKeepFirst (cands : List String) :
    cands.foldl setAdd [] = dedupKeepFirst cands := by
  have h := setAdd_foldl_eq_append_dedup cands []
  simpa using h

/-! ### Numeric bounds for the rounding and the progress factors -/

theorem roundTo1_nonneg {q : ℚ} (h : 0 ≤ q) : 0 ≤ roundTo1 q := by
  unfold roundTo1
  have h1 : (0 : ℤ) ≤ round (q * 10) := by
    rw [round_eq]
    exact Int.le_floor.mpr (by push_cast; linarith)
  have h2 : (0 : ℚ) ≤ ((round (q * 10) : ℤ) : ℚ) := by exact_mod_cast h1
  linarith

theorem roundTo1_le_hundred {q : ℚ} (h : q ≤ 100) : roundTo1 q ≤ 100 := by
  unfold roundTo1
  have h1 : ((round (q * 10) : ℤ) : ℚ) ≤ q * 10 + 1 / 2 := round_le_add_half (q * 10)
  have h2 : (round (q * 10) : ℤ) < 1001 := by
    have : ((round (q * 10) : ℤ) : ℚ) < 1001 := by linarith
    exact_mod_cast this
  have h3 : (round (q * 10) : ℤ) ≤ 1000 := by omega
  have h4 : ((round (q * 10) : ℤ) : ℚ) ≤ 1000 := by exact_mod_cast h3
  linarith

theorem ite_min_bounds {c : Prop} [Decidable c] {x : ℚ} (hx : c → 0 ≤ x) :
    0 ≤ (if c then min x 1 else 1) ∧ (if c then min x 1 else 1) ≤ 1 := by
  split_ifs with h
  · exact ⟨le_min (hx h) zero_le_one, min_le_right _ _⟩
  · exact ⟨zero_le_one, le_refl 1⟩

theorem averageTagsPerSite_nonneg (sites : List SiteRecord) : 0 ≤ averageTagsPerSite sites := by
  unfold averageTagsPerSite
  split
  · exact le_refl 0
  · positivity

theorem coverageRatio_nonneg (targets : DirectoryTargets) (sites : List SiteRecord) :
    0 ≤ coverageRatio targets sites := by
  unfold coverageRatio
  split
  · exact zero_le_one
  · positivity

theorem coverageRatio_le_one (targets : DirectoryTargets) (sites : List SiteRecord) :
    coverageRatio targets sites ≤ 1 := by
  unfold coverageRatio
  split
  · exact le_refl 1
  · rename_i h
    have hpos : (0 : ℚ) < (targets.recommended_tags.length : ℚ) := by
      exact_mod_cast Nat.pos_of_ne_zero h
    rw [div_le_one hpos]
    exact_mod_cast List.length_filter_le _ _

theorem factorsSum_bounds (targets : DirectoryTargets) (sites : List SiteRecord) :
    0 ≤ (normalizedProgressFactors targets sites).foldl (fun sum value => sum + value) 0 ∧
      (normalizedProgressFactors targets sites).foldl (fun sum value => sum + value) 0 ≤ 3 := by
  have h1 := ite_min_bounds (c := 0 < targets.minimum_sites)
    (x := (sites.length : ℚ) / (targets.minimum_sites : ℚ))
    (fun h => by positivity)
  have h2 := ite_min_bounds (c := 0 < targets.minimum_tag_density)
    (x := averageTagsPerSite sites / targets.minimum_tag_density)
    (fun h => div_nonneg (averageTagsPerSite_nonneg sites) (le_of_lt h))
  have h3 := coverageRatio_nonneg targets sites
  have h4 := coverageRatio_le_one targets sites
  simp only [normalizedProgressFactors, List.foldl_cons, List.foldl_nil, zero_add]
  constructor
  · linarith [h1.1, h2.1]
  · linarith [h1.2, h2.2]

theorem progressScore_bounds (targets : DirectoryTargets) (sites : List SiteRecord) :
    0 ≤ progressScore targets sites ∧ progressScore targets sites ≤ 100 := by
  unfold progressScore
  have hlen : ((normalizedProgressFactors targets sites).length : ℚ) = 3 := by
    simp [normalizedProgressFactors]
  obtain ⟨hs0, hs3⟩ := factorsSum_bounds targets sites
  rw [hlen]
  constructor
  · exact roundTo1_nonneg (by linarith)
  · exact roundTo1_le_hundred (by linarith)

/-! ### Claim theorems -/

/-- C4: for every input list of sites, `averageTagsPerSite` is
`totalTags / siteCount` when `siteCount > 0` and exactly `0` when
`siteCount == 0` (the division is guarded, so no division fault is
possible); in particular the empty entries list yields
`averageTagsPerSite == 0`. -/
theorem averageTagsPerSite_guarded (targets : DirectoryTargets) (sites : List SiteRecord) :
    ((assessDirectoryAgainstVision targets sites).metrics.averageTagsPerSite =
      if (assessDirectoryAgainstVision targets sites).metrics.siteCount = 0 then 0
      else ((assessDirectoryAgainstVision targets sites).metrics.totalTags : ℚ) /
        ((assessDirectoryAgainstVision targets sites).metrics.siteCount : ℚ)) ∧
    (assessDirectoryAgainstVision targets []).metrics.averageTagsPerSite = 0 :=
  ⟨rfl, rfl⟩

/-- C3: `coverageRatio` is `presentRecommendedTags.length / recommendedTags.length`
when the recommended-tag list is non-empty and exactly `1` when it is empty,
and always lies in `[0, 1]`. -/
theorem coverageRatio_spec (targets : DirectoryTargets) (sites : List SiteRecord) :
    ((assessDirectoryAgainstVision targets sites).metrics.coverageRatio =
      if (assessDirectoryAgainstVision targets sites).metrics.recommendedTags = [] then 1
      else ((assessDirectoryAgainstVision targets sites).metrics.presentRecommendedTags.length : ℚ) /
        ((assessDirectoryAgainstVision targets sites).metrics.recommendedTags.length : ℚ)) ∧
    0 ≤ (assessDirectoryAgainstVision targets sites).metrics.coverageRatio ∧
    (assessDirectoryAgainstVision targets sites).metrics.coverageRatio ≤ 1 := by
  refine ⟨?_, coverageRatio_nonneg targets sites, coverageRatio_le_one targets sites⟩
  show coverageRatio targets sites = _
  unfold coverageRatio
  by_cases h : targets.recommended_tags = []
  · simp [assessDirectoryAgainstVision, h]
  · have hlen : targets.recommended_tags.length ≠ 0 := by
      simpa [List.length_eq_zero] using h
    simp [assessDirectoryAgainstVision, h, hlen]

/-- C5: `meetsMinimumTagDensity` is `true` unconditionally when
`minimum_tag_density <= 0`, and otherwise holds exactly when
`averageTagsPerSite >= minimum_tag_density`; with zero sites and a positive
density target it is `false`. -/
theorem meetsMinimumTagDensity_spec (targets : DirectoryTargets) (sites : List SiteRecord) :
    (targets.minimum_tag_density ≤ 0 →
      (assessDirectoryAgainstVision targets sites).metrics.meetsMinimumTagDensity = true) ∧
    (0 < targets.minimum_tag_density →
      ((assessDirectoryAgainstVision targets sites).metrics.meetsMinimumTagDensity = true ↔
        (assessDirectoryAgainstVision targets sites).metrics.averageTagsPerSite ≥
          targets.minimum_tag_density)) ∧
    (0 < targets.minimum_tag_density →
      (assessDirectoryAgainstVision targets []).metrics.meetsMinimumTagDensity = false) := by
  refine ⟨?_, ?_, ?_⟩
  · intro h
    show meetsMinimumTagDensity targets sites = true
    unfold meetsMinimumTagDensity
    rw [if_pos h]
  · intro h
    show meetsMinimumTagDensity targets sites = true ↔ averageTagsPerSite sites ≥ _
    unfold meetsMinimumTagDensity
    rw [if_neg (not_le.mpr h)]
    exact decide_eq_true_iff
  · intro h
    show meetsMinimumTagDensity targets [] = false
    unfold meetsMinimumTagDensity
    rw [if_neg (not_le.mpr h)]
    have havg : averageTagsPerSite [] = 0 := rfl
    rw [havg]
    simpa using not_le.mpr h

/-- C5 witness: with the example configuration (density target 1.5) and zero
sites, the density check reports false. -/
theorem meetsMinimumTagDensity_spec_witness :
    (assessDirectoryAgainstVision exampleTargets []).metrics.meetsMinimumTagDensity = false :=
  (meetsMinimumTagDensity_spec exampleTargets []).2.2 (by norm_num [exampleTargets])

/-- C7: the list-formatting helper returns the empty string for zero items,
the item itself for one, `"A and B"` for two, and for three or more joins all
but the last with commas followed by ", and " before the final item. -/
theorem formatList_spec :
    formatList [] = "" ∧
    (∀ a, formatList [a] = a) ∧
    (∀ a b, formatList [a, b] = a ++ " and " ++ b) ∧
    (∀ items : List String, 3 ≤ items.length →
      formatList items = String.intercalate ", " items.dropLast ++ ", and " ++ items.getLast!) := by
  refine ⟨rfl, fun a => rfl, fun a b => rfl, ?_⟩
  intro items h
  match items, h with
  | a :: b :: c :: rest, _ => rfl

/-- C7 witness: the Oxford-comma example from the spec. -/
theorem formatList_spec_witness : formatList ["a", "b", "c"] = "a, b, and c" := by
  rw [formatList_spec.2.2.2 ["a", "b", "c"] (by norm_num)]
  rfl

/-- C10: `totalTags` counts tag occurrences, not distinct tags: it is the sum
of the lengths of all tag lists, so repeats of one string within a site or
across sites each count; recommended-tag presence only requires at least one
occurrence anywhere. -/
theorem totalTags_counts_occurrences (targets : DirectoryTargets) (sites : List SiteRecord) :
    (assessDirectoryAgainstVision targets sites).metrics.totalTags =
      (sites.map (fun s => s.tags.length)).sum ∧
    (∀ tag, tag ∈ (assessDirectoryAgainstVision targets sites).metrics.presentRecommendedTags ↔
      tag ∈ targets.recommended_tags ∧ ∃ s ∈ sites, tag ∈ s.tags) := by
  constructor
  · show totalTags sites = _
    exact tagTally_fst sites
  · intro tag
    show tag ∈ presentRecommendedTags targets sites ↔ _
    unfold presentRecommendedTags
    rw [List.mem_filter, tagTally_has]
    simp

/-- C2: present and missing recommended tags partition the configured list:
their lengths sum to the configured length, a tag is present exactly when it
occurs in some site tag list, and both outputs preserve the configuration
order (they are sublists of it). -/
theorem recommendedTags_partition (targets : DirectoryTargets) (sites : List SiteRecord) :
    ((assessDirectoryAgainstVision targets sites).metrics.presentRecommendedTags.length +
      (assessDirectoryAgainstVision targets sites).metrics.missingRecommendedTags.length =
        (assessDirectoryAgainstVision targets sites).metrics.recommendedTags.length) ∧
    (∀ tag ∈ targets.recommended_tags,
      (tag ∈ (assessDirectoryAgainstVision targets sites).metrics.presentRecommendedTags ↔
        ∃ s ∈ sites, tag ∈ s.tags) ∧
      (tag ∈ (assessDirectoryAgainstVision targets sites).metrics.missingRecommendedTags ↔
        ¬ ∃ s ∈ sites, tag ∈ s.tags)) ∧
    (assessDirectoryAgainstVision targets sites).metrics.presentRecommendedTags.Sublist
      (assessDirectoryAgainstVision targets sites).metrics.recommendedTags ∧
    (assessDirectoryAgainstVision targets sites).metrics.missingRecommendedTags.Sublist
      (assessDirectoryAgainstVision targets sites).metrics.recommendedTags := by
  refine ⟨?_, ?_, ?_, ?_⟩
  · show (presentRecommendedTags targets sites).length +
      (missingRecommendedTags targets sites).length = targets.recommended_tags.length
    exact length_filter_add_length_filter_not targets.recommended_tags
      (fun tag => mapHas (tagTally sites).2 tag)
  · intro tag htag
    constructor
    · show tag ∈ presentRecommendedTags targets sites ↔ _
      unfold presentRecommendedTags
      rw [List.mem_filter, tagTally_has]
      simp [htag]
    · show tag ∈ missingRecommendedTags targets sites ↔ _
      unfold missingRecommendedTags
      rw [List.mem_filter, tagTally_has]
      simp [htag]
  · exact List.filter_sublist _
  · exact List.filter_sublist _

/-- C2 witness: with one site tagged "solar" under the example configuration,
"solar" is reported present. -/
theorem recommendedTags_partition_witness :
    "solar" ∈ (assessDirectoryAgainstVision exampleTargets
        [exampleSite 1 ["solar"]]).metrics.presentRecommendedTags ↔
      ∃ s ∈ [exampleSite 1 ["solar"]], "solar" ∈ s.tags :=
  ((recommendedTags_partition exampleTargets [exampleSite 1 ["solar"]]).2.1 "solar"
    (by simp [exampleTargets])).1

/-- C9: the opportunities list never contains duplicate strings, and it is the
first-occurrence deduplication of the generated messages, so the surviving
strings appear in first-insertion order (a sublist of the generation order). -/
theorem opportunities_nodup_first_insertion (targets : DirectoryTargets)
    (sites : List SiteRecord) :
    (assessDirectoryAgainstVision targets sites).opportunities.Nodup ∧
    (assessDirectoryAgainstVision targets sites).opportunities =
      dedupKeepFirst (opportunityCandidates targets sites) ∧
    (assessDirectoryAgainstVision targets sites).opportunities.Sublist
      (opportunityCandidates targets sites) := by
  have he : (assessDirectoryAgainstVision targets sites).opportunities =
      dedupKeepFirst (opportunityCandidates targets sites) :=
    setAdd_foldl_eq_dedupKeepFirst (opportunityCandidates targets sites)
  refine ⟨?_, he, ?_⟩
  · rw [he]
    exact nodup_dedupKeepFirst _
  · rw [he]
    exact sublist_dedupKeepFirst _

/-- C8: the storytelling-focus message is an opportunity whenever the focus
list is non-empty, not gated on any metric; and when all three targets are met
it is the only opportunity. -/
theorem storytelling_opportunity_spec (targets : DirectoryTargets) (sites : List SiteRecord) :
    (targets.storytelling_focus ≠ [] →
      storytellingMessage targets.storytelling_focus ∈
        (assessDirectoryAgainstVision targets sites).opportunities) ∧
    ((assessDirectoryAgainstVision targets sites).metrics.meetsMinimumSites = true →
      (assessDirectoryAgainstVision targets sites).metrics.meetsMinimumTagDensity = true →
      (assessDirectoryAgainstVision targets sites).metrics.missingRecommendedTags = [] →
      targets.storytelling_focus ≠ [] →
      (assessDirectoryAgainstVision targets sites).opportunities =
        [storytellingMessage targets.storytelling_focus]) := by
  constructor
  · intro hfocus
    have hflen : targets.storytelling_focus.length ≠ 0 := by
      simpa [List.length_eq_zero] using hfocus
    have hmem : storytellingMessage targets.storytelling_focus ∈
        opportunityCandidates targets sites := by
      unfold opportunityCandidates
      simp [hflen]
    show storytellingMessage targets.storytelling_focus ∈
      (opportunityCandidates targets sites).foldl setAdd []
    rw [setAdd_foldl_eq_dedupKeepFirst, mem_dedupKeepFirst]
    exact hmem
  · intro h1 h2 h3 hfocus
    have h1' : meetsMinimumSites targets sites = true := h1
    have h2' : meetsMinimumTagDensity targets sites = true := h2
    have h3' : missingRecommendedTags targets sites = [] := h3
    have hflen : targets.storytelling_focus.length ≠ 0 := by
      simpa [List.length_eq_zero] using hfocus
    show (opportunityCandidates targets sites).foldl setAdd [] = _
    have hc : opportunityCandidates targets sites =
        [storytellingMessage targets.storytelling_focus] := by
      unfold opportunityCandidates
      rw [h1', h2', h3']
      simp [hflen]
    rw [hc]
    rfl

/-- C8 witness: the full spec scenario — two sites each tagged with both
recommended tags — yields exactly the storytelling-focus message. -/
theorem storytelling_opportunity_spec_witness :
    (assessDirectoryAgainstVision exampleTargets
        [exampleSite 1 ["solar", "cooperative"], exampleSite 2 ["solar", "cooperative"]]).opportunities =
      [storytellingMessage ["community"]] :=
  (storytelling_opportunity_spec exampleTargets
      [exampleSite 1 ["solar", "cooperative"], exampleSite 2 ["solar", "cooperative"]]).2
    (by decide) (by norm_num [assessDirectoryAgainstVision, meetsMinimumTagDensity,
      averageTagsPerSite, totalTags, tagTally, tallyTags, tallyStep, exampleTargets, exampleSite])
    (by decide) (by decide)

/-- C1: under the documented non-negative targets, the progress score equals
the mean of the three clamped factors (each defaulting to 1 when its target is
0) times 100, rounded to one decimal, and always lies in [0, 100]. -/
theorem progressScore_spec (targets : DirectoryTargets) (sites : List SiteRecord)
    (hms : 0 ≤ targets.minimum_sites) (hmd : 0 ≤ targets.minimum_tag_density) :
    ((assessDirectoryAgainstVision targets sites).progressScore =
      roundTo1 ((((if targets.minimum_sites = 0 then 1
            else min (((assessDirectoryAgainstVision targets sites).metrics.siteCount : ℚ) /
              (targets.minimum_sites : ℚ)) 1) +
          (if targets.minimum_tag_density = 0 then 1
            else min ((assessDirectoryAgainstVision targets sites).metrics.averageTagsPerSite /
              targets.minimum_tag_density) 1) +
          (assessDirectoryAgainstVision targets sites).metrics.coverageRatio) / 3) * 100)) ∧
    0 ≤ (assessDirectoryAgainstVision targets sites).progressScore ∧
    (assessDirectoryAgainstVision targets sites).progressScore ≤ 100 := by
  refine ⟨?_, (progressScore_bounds targets sites).1, (progressScore_bounds targets sites).2⟩
  show progressScore targets sites = _
  simp only [assessDirectoryAgainstVision]
  have e1 : (if 0 < targets.minimum_sites
        then min ((sites.length : ℚ) / (targets.minimum_sites : ℚ)) 1 else 1) =
      (if targets.minimum_sites = 0 then 1
        else min ((sites.length : ℚ) / (targets.minimum_sites : ℚ)) 1) := by
    rcases hms.lt_or_eq with h | h
    · rw [if_pos h, if_neg (by omega)]
    · rw [if_neg (by omega), if_pos (by omega)]
  have e2 : (if 0 < targets.minimum_tag_density
        then min (averageTagsPerSite sites / targets.minimum_tag_density) 1 else 1) =
      (if targets.minimum_tag_density = 0 then 1
        else min (averageTagsPerSite sites / targets.minimum_tag_density) 1) := by
    rcases hmd.lt_or_eq with h | h
    · rw [if_pos h, if_neg (show ¬targets.minimum_tag_density = 0 by
        intro hh
        rw [hh] at h
        exact lt_irrefl 0 h)]
    · rw [if_neg (by rw [← h]; exact lt_irrefl 0), if_pos h.symm]
  unfold progressScore normalizedProgressFactors
  simp only [List.foldl_cons, List.foldl_nil, List.length_cons, List.length_nil, zero_add]
  rw [e1, e2]
  norm_num

/-- C1 witness: the bounds at the example configuration with an empty
directory. -/
theorem progressScore_spec_witness :
    0 ≤ (assessDirectoryAgainstVision exampleTargets []).progressScore ∧
      (assessDirectoryAgainstVision exampleTargets []).progressScore ≤ 100 :=
  ⟨(progressScore_spec exampleTargets [] (by norm_num [exampleTargets])
      (by norm_num [exampleTargets])).2.1,
    (progressScore_spec exampleTargets [] (by norm_num [exampleTargets])
      (by norm_num [exampleTargets])).2.2⟩

/-- C6 counterexample: a well-formed document with no fields at all (so every
required field is missing) still loads successfully — the cast performs no
runtime validation, so the load does not fail on missing required fields. -/
theorem loadVisionConfig_accepts_missing_fields :
    loadVisionConfig (Except.ok (YamlValue.objV [])) = Except.ok (YamlValue.objV []) ∧
    yamlObjHasKey (YamlValue.objV []) "mission" = false ∧
    yamlObjHasKey (YamlValue.objV []) "directory_targets" = false :=
  ⟨rfl, rfl, rfl⟩

/-- C6 amended: the loader passes the parse result through unchanged — it
fails exactly when the document parse fails (malformed structured data), and
performs no required-field validation, so a well-formed but incomplete
document is a partial success. -/
theorem loadVisionConfig_eq_parse (parsed : Except String YamlValue) :
    loadVisionConfig parsed = parsed := by
  cases parsed <;> rfl
